import Mathlib

/-!
Verification of the Brave Search MCP server's core: the TTL cache, the
search backend client's error mapping, the multi-strategy orchestrator
(`smart_search`, `research_search`) and the tool facade.  The repository
ships `server.py` only in documented form (the developer guide gives the
caching, multi-strategy and error-handling patterns verbatim), so the
executable definitions below are modelled from the specification and from
those documented code patterns.
-/

namespace BraveSearch

/-- Source type of a result record: the provider groups results into
web / news / faq sections. -/
inductive SourceType where
  | web
  | news
  | faq
deriving DecidableEq, Repr

/-- Modelled from the spec: `ResultRecord` — one normalized search record
parsed from the provider response (`server.py` is not in the repository;
the spec's §3 data model gives its fields). -/
structure ResultRecord where
  title : String
  url : String
  description : String
  snippet : String
  age : String
  language : String
  sourceType : SourceType
deriving DecidableEq, Repr

/-- Modelled from the spec: `ResultSet` — ordered records plus orchestration
metadata (`strategyUsed`, `attemptCount`, and the flag recording whether the
result threshold was met). -/
structure ResultSet where
  records : List ResultRecord
  strategyUsed : Nat
  attemptCount : Nat
  thresholdNotMet : Bool
deriving DecidableEq, Repr

/-- The typed backend error taxonomy of spec §4.2 / §7. -/
inductive BackendErrorKind where
  | Unauthorized
  | RateLimited
  | InvalidRequest
  | Unavailable
  | Malformed
deriving DecidableEq, Repr

/-! ## Cache

The documented caching system is a module-level dict
`search_cache = {}` mapping a string key to `(result, timestamp)`, with
`cache_ttl = timedelta(hours=1)` and a read-time validity check
`is_cache_valid(timestamp)`.  We model the dict as an association list
with at most one entry per key, and time as a `Nat` (seconds). -/

/-- One cache slot: key, stored value, and the time it was stored. -/
abbrev SearchCache := List (String × ResultSet × Nat)

/-- Default TTL: one hour, in seconds (`cache_ttl = timedelta(hours=1)`). -/
def cache_ttl : Nat := 3600

/-- Modelled from the spec: `is_cache_valid(timestamp)` — an entry is valid
while `now - storedAt < ttl` (read-time check; `server.py` is absent, the
guide documents the helper at its caching layer). -/
def is_cache_valid (ttl now storedAt : Nat) : Bool :=
  now - storedAt < ttl

/-- Modelled from the spec: the get-style cache check of the documented
caching pattern — `if cache_key in search_cache:` then destructure
`(cached_result, timestamp)` and `if is_cache_valid(timestamp): return
cached_result`.  It returns the looked-up value together with the cache
left behind by the check (the pattern performs no mutation). -/
def cache_lookup (c : SearchCache) (ttl now : Nat) (k : String) :
    Option ResultSet × SearchCache :=
  match c.find? (fun e => e.1 == k) with
  | none => (none, c)
  | some (_, v, ts) =>
      if is_cache_valid ttl now ts then (some v, c) else (none, c)

/-- `get(key)`: the value part of the cache check. -/
def cache_get (c : SearchCache) (ttl now : Nat) (k : String) :
    Option ResultSet :=
  (cache_lookup c ttl now k).1

/-- Modelled from the spec: `put` — `search_cache[cache_key] = (result,
datetime.now())`; dict assignment keeps one entry per key, so the previous
entry under the same key (if any) is overwritten. -/
def cache_put (c : SearchCache) (k : String) (v : ResultSet) (now : Nat) :
    SearchCache :=
  (k, v, now) :: c.filter (fun e => e.1 ≠ k)

/-- `clear()`: `search_cache.clear()` empties the store. -/
def cache_clear (_c : SearchCache) : SearchCache :=
  []

/-- Modelled from the spec: the documented tool-level caching pattern —
check the cache, on a valid hit return the cached result without touching
the backend, on a miss call the backend once and store the result.  The
third component counts backend calls made by this invocation. -/
def cached_search (c : SearchCache) (ttl now : Nat) (k : String)
    (backend : Unit → ResultSet) : ResultSet × SearchCache × Nat :=
  match cache_lookup c ttl now k with
  | (some v, c') => (v, c', 0)
  | (none, c') =>
      let r := backend ()
      (r, cache_put c' k r now, 1)

/-- Issue the same request at each time in `times`, threading the cache;
returns the list of results and the total number of backend calls. -/
def repeat_search (c : SearchCache) (ttl : Nat) (times : List Nat)
    (k : String) (backend : Unit → ResultSet) :
    List ResultSet × SearchCache × Nat :=
  match times with
  | [] => ([], c, 0)
  | t :: rest =>
      let (r, c', n) := cached_search c ttl t k backend
      let (rs, c'', m) := repeat_search c' ttl rest k backend
      (r :: rs, c'', n + m)

/-! ## Search Backend Client

`make_brave_request` / `extract_search_results` issue the HTTP request and
map transport/HTTP failures to the typed error taxonomy; parsing the
provider's grouped sections yields a flat record list. -/

/-- The provider's grouped response body, once JSON parsing and schema
validation succeeded: web / news / faq sections of records. -/
structure ProviderResponse where
  web : List ResultRecord
  news : List ResultRecord
  faq : List ResultRecord
deriving DecidableEq, Repr

/-- What the HTTP transport hands back for one request: a status with a
body that either parsed against the schema (`some`) or did not (`none`),
or a timeout, or a connection failure. -/
inductive HttpOutcome where
  | response (status : Nat) (body : Option ProviderResponse)
  | timeout
  | connectionFailure
deriving Repr

/-- Modelled from the spec: the status-code mapping of `make_brave_request`
(`server.py` absent) — 401/403 → Unauthorized, 429 → RateLimited, other
4xx → InvalidRequest, 5xx → Unavailable. -/
def classify_status (status : Nat) : BackendErrorKind :=
  if status = 401 ∨ status = 403 then .Unauthorized
  else if status = 429 then .RateLimited
  else if 400 ≤ status ∧ status < 500 then .InvalidRequest
  else .Unavailable

/-- Modelled from the spec: `make_brave_request` — sends the request and
maps the transport outcome: a 2xx response with a parseable body succeeds,
a 2xx response whose body fails JSON parsing or schema validation is
`Malformed`, non-2xx statuses classify per `classify_status`, and
timeout / connection failure are `Unavailable`. -/
def make_brave_request (o : HttpOutcome) :
    Except BackendErrorKind ProviderResponse :=
  match o with
  | .timeout => .error .Unavailable
  | .connectionFailure => .error .Unavailable
  | .response status body =>
      if 200 ≤ status ∧ status < 300 then
        match body with
        | some r => .ok r
        | none => .error .Malformed
      else
        .error (classify_status status)

/-- Modelled from the spec: `extract_search_results` — flattens the grouped
sections into one record list, preserving per-record source type. -/
def extract_search_results (r : ProviderResponse) : List ResultRecord :=
  r.web ++ r.news ++ r.faq

/-- The client's `execute`: request, then parse into a flat record list.
A well-formed response with zero extractable records is a valid empty
result, not an error. -/
def backend_execute (o : HttpOutcome) :
    Except BackendErrorKind (List ResultRecord) :=
  match make_brave_request o with
  | .ok r => .ok (extract_search_results r)
  | .error e => .error e

/-! ## Strategy Orchestrator: smart_search

The documented multi-strategy pattern: build an ordered strategy list
(verbatim query, exact-phrase query, time-filtered query), try each in
order, stop at the first whose record count meets the threshold, else fall
back to the best attempt seen.  We model the backend as an oracle giving
one outcome per strategy; the orchestrator consumes the outcome list in
order, and the second component of its result counts the backend calls it
made. -/

/-- One query variant tried during orchestrated search: the transformed
query string and an optional freshness filter. -/
structure Strategy where
  query : String
  freshness : Option String
deriving DecidableEq, Repr

/-- Modelled from the spec: the fixed ordered strategy list of
`smart_search` — (a) the query as given, (b) the query wrapped in
quotation marks, (c) the query with a past-year recency filter. -/
def smart_strategies (query : String) : List Strategy :=
  [ ⟨query, none⟩,
    ⟨"\"" ++ query ++ "\"", none⟩,
    ⟨query, some "py"⟩ ]

/-- The outcome of one strategy attempt at the backend. -/
abbrev AttemptOutcome := Except BackendErrorKind (List ResultRecord)

instance {ε α : Type} [DecidableEq ε] [DecidableEq α] :
    DecidableEq (Except ε α) := fun a b =>
  match a, b with
  | .ok x, .ok y =>
      if h : x = y then .isTrue (by rw [h]) else .isFalse (by simp [h])
  | .error x, .error y =>
      if h : x = y then .isTrue (by rw [h]) else .isFalse (by simp [h])
  | .ok _, .error _ => .isFalse (by simp)
  | .error _, .ok _ => .isFalse (by simp)

/-- Does this attempt outcome meet the result threshold? An errored
attempt never does (it counts as a zero-result attempt). -/
def meets_threshold (threshold : Nat) : AttemptOutcome → Bool
  | .ok r => threshold ≤ r.length
  | .error _ => false

/-- Keep the better of the best-so-far attempt and a new successful
attempt `(idx, r)`: a strictly higher record count replaces, a tie keeps
the earlier strategy. -/
def update_best (best : Option (Nat × List ResultRecord)) (idx : Nat)
    (r : List ResultRecord) : Option (Nat × List ResultRecord) :=
  match best with
  | none => some (idx, r)
  | some (j, s) => if s.length < r.length then some (idx, r) else some (j, s)

/-- Modelled from the spec: the `smart_search` loop (`server.py` absent;
the guide documents the multi-strategy pattern).  `idx` is the index of
the next strategy, `best` the best successful attempt so far (index and
records; ties keep the earlier strategy).  Returns the selected result (or
the aggregated `Unavailable` error when every attempt raised) and the
number of backend calls made from this point on. -/
def smart_search_go (threshold : Nat) :
    List AttemptOutcome → Nat → Option (Nat × List ResultRecord) →
    (Except BackendErrorKind ResultSet) × Nat
  | [], idx, best =>
      match best with
      | some (i, r) =>
          (.ok { records := r, strategyUsed := i, attemptCount := idx,
                 thresholdNotMet := true }, 0)
      | none => (.error .Unavailable, 0)
  | o :: rest, idx, best =>
      match o with
      | .error _ =>
          let (res, n) := smart_search_go threshold rest (idx + 1) best
          (res, n + 1)
      | .ok r =>
          if threshold ≤ r.length then
            (.ok { records := r, strategyUsed := idx, attemptCount := idx + 1,
                   thresholdNotMet := false }, 1)
          else
            let (res, n) :=
              smart_search_go threshold rest (idx + 1) (update_best best idx r)
            (res, n + 1)

/-- The best (highest record count, earliest strategy on ties) successful
attempt among `best` and the successes of `outs`, with `outs` indexed
absolutely from `idx`.  This is the accumulator `smart_search_go` carries,
written as a standalone fold so the fallback selection can be reasoned
about separately. -/
def fallback_best (best : Option (Nat × List ResultRecord)) :
    List AttemptOutcome → Nat → Option (Nat × List ResultRecord)
  | [], _ => best
  | .error _ :: rest, idx => fallback_best best rest (idx + 1)
  | .ok r :: rest, idx => fallback_best (update_best best idx r) rest (idx + 1)

/-- `smart_search` over a fixed sequence of backend outcomes, one per
strategy in list order. -/
def smart_search_outs (outs : List AttemptOutcome) (threshold : Nat) :
    (Except BackendErrorKind ResultSet) × Nat :=
  smart_search_go threshold outs 0 none

/-- Modelled from the spec: `smart_search(query, max_attempts,
result_threshold)` — builds the strategy list capped at `maxAttempts` and
runs the loop against the backend oracle. -/
def smart_search (backend : Strategy → AttemptOutcome) (query : String)
    (maxAttempts threshold : Nat) :
    (Except BackendErrorKind ResultSet) × Nat :=
  smart_search_outs (((smart_strategies query).take maxAttempts).map backend)
    threshold

/-! ## Strategy Orchestrator: research_search -/

/-- Research depth levels of `research_search`. -/
inductive Depth where
  | light
  | medium
  | deep
deriving DecidableEq, Repr

/-- One labeled section of a research result: the source it came from, its
records, and an error note when that section's backend call failed. -/
structure ResearchSection where
  label : SourceType
  records : List ResultRecord
  errorNote : Option BackendErrorKind
deriving DecidableEq, Repr

/-- Modelled from the spec: the sources queried per depth — light is one
web call, medium adds news, deep adds the additional configured source. -/
def research_sources (extra : SourceType) : Depth → List SourceType
  | .light => [.web]
  | .medium => [.web, .news]
  | .deep => [.web, .news, extra]

/-- Modelled from the spec: the per-source loop of `research_search`
(`server.py` absent) — one backend call per source in order; an error from
a section's call is caught there and reported as an empty section carrying
an error note, while other sections are unaffected.  The second component
counts backend calls made. -/
def research_fetch (backend : SourceType → AttemptOutcome) :
    List SourceType → List ResearchSection × Nat
  | [] => ([], 0)
  | s :: rest =>
      let sec : ResearchSection :=
        match backend s with
        | .ok r => ⟨s, r, none⟩
        | .error e => ⟨s, [], some e⟩
      let (secs, n) := research_fetch backend rest
      (sec :: secs, n + 1)

/-- Modelled from the spec: `research_search(topic, depth, ...)` — issues
the depth-determined backend calls and returns the merged, labeled
sections (never an error: sections degrade individually). -/
def research_search (backend : SourceType → AttemptOutcome)
    (extra : SourceType) (depth : Depth) : List ResearchSection × Nat :=
  research_fetch backend (research_sources extra depth)

/-! ## Tool Facade

The documented tool template validates required input first
(`if not param1:` return an error object with message `param1 is required`),
and the documented error-handling pattern catches the typed backend error
(returning its user-friendly message) and then any other exception
(returning a fixed general message).  We model what a handler body can do
as an `InternalOutcome`: succeed, raise the typed backend error, or raise
any other exception. -/

/-- What a tool handler body produced before the facade's error handling:
a value, a typed backend error, or an unexpected (non-backend) exception
carrying its raw detail (message / stack state). -/
inductive InternalOutcome (α : Type) where
  | success (v : α)
  | backendError (e : BackendErrorKind)
  | unexpected (detail : String)

/-- The structured value a tool call returns to the agent runtime: a
payload, or the uniform caller-facing error object. -/
inductive ToolResult (α : Type) where
  | ok (v : α)
  | err (message : String)
deriving DecidableEq

/-- Modelled from the spec: the fixed user-friendly message per backend
error kind — a function of the kind alone, so it can carry neither the
credential nor raw provider payloads. -/
def error_message : BackendErrorKind → String
  | .Unauthorized => "Invalid or missing API key"
  | .RateLimited => "Rate limit exceeded, please retry later"
  | .InvalidRequest => "Invalid search request"
  | .Unavailable => "Search service is unavailable"
  | .Malformed => "Unexpected response from search service"

/-- The fixed message of the catch-all branch of the documented
error-handling pattern (`except Exception:` return the error object with
the general message): the raw exception detail is logged, not
returned. -/
def general_error_message : String :=
  "General error message"

/-- Modelled from the spec: the uniform facade wrapper shared by the four
tools — required-input validation first, then translation of every
escaping error into the `error` object. -/
def run_tool {α : Type} (validation : Option String)
    (body : InternalOutcome α) : ToolResult α :=
  match validation with
  | some m => .err m
  | none =>
      match body with
      | .success v => .ok v
      | .backendError e => .err (error_message e)
      | .unexpected _ => .err general_error_message

/-- Required-query validation: an empty (or missing, encoded as empty)
query is rejected with the structured message of the tool template. -/
def validate_query (q : String) : Option String :=
  if q = "" then some "query is required" else none

/-- The `web_search` tool as seen by the agent runtime. -/
def web_search_tool (query : String) (body : InternalOutcome ResultSet) :
    ToolResult ResultSet :=
  run_tool (validate_query query) body

/-- The `news_search` tool as seen by the agent runtime. -/
def news_search_tool (query : String) (body : InternalOutcome ResultSet) :
    ToolResult ResultSet :=
  run_tool (validate_query query) body

/-- The `smart_search` tool as seen by the agent runtime. -/
def smart_search_tool (query : String) (body : InternalOutcome ResultSet) :
    ToolResult ResultSet :=
  run_tool (validate_query query) body

/-- The `research_search` tool as seen by the agent runtime (its required
input is the research topic). -/
def research_search_tool (topic : String)
    (body : InternalOutcome (List ResearchSection)) :
    ToolResult (List ResearchSection) :=
  run_tool (validate_query topic) body

/-! ## Concrete mock values

Fixed records and mocked backends used to evaluate the theorems on the
spec's end-to-end examples. -/

/-- A fixed sample record of the given source type. -/
def mock_rec (st : SourceType) : ResultRecord :=
  { title := "t", url := "u", description := "d", snippet := "s",
    age := "a", language := "en", sourceType := st }

/-- Mocked backend for the spec's end-to-end example: 0 records for the
verbatim query, 5 for the quoted-phrase query, 2 for the time-filtered
query. -/
def mock_backend (s : Strategy) : AttemptOutcome :=
  if s.freshness.isSome then .ok (List.replicate 2 (mock_rec .web))
  else if s.query = "\"rust ownership\"" then
    .ok (List.replicate 5 (mock_rec .web))
  else .ok []

/-- Mocked per-source backend for the research example: the news call
raises `Unavailable`, the other sources succeed. -/
def mock_research_backend (s : SourceType) : AttemptOutcome :=
  match s with
  | .web => .ok [mock_rec .web]
  | .news => .error .Unavailable
  | .faq => .ok [mock_rec .faq]

/-! ## Cache theorems -/

/-- The get-style check leaves the cache exactly as it was, in every case
(key missing, entry valid, entry expired). -/
theorem cache_lookup_snd_eq (c : SearchCache) (ttl now : Nat) (k : String) :
    (cache_lookup c ttl now k).2 = c := by
  unfold cache_lookup
  cases h : c.find? (fun e => e.1 == k) with
  | none => rfl
  | some e =>
      obtain ⟨k0, v, ts⟩ := e
      by_cases hv : is_cache_valid ttl now ts <;> simp [hv]

/-- The cache check is the pair of the looked-up value and the unchanged
cache. -/
theorem cache_lookup_eq_pair (c : SearchCache) (ttl now : Nat) (k : String) :
    cache_lookup c ttl now k = (cache_get c ttl now k, c) := by
  have h2 := cache_lookup_snd_eq c ttl now k
  cases hp : cache_lookup c ttl now k with
  | mk a b2 =>
      rw [hp] at h2
      simp only [cache_get, hp]
      simp only [Prod.snd] at h2
      rw [h2]

/-- Reading back the key just written: the value while the entry is valid,
absent once it expired. -/
theorem cache_get_put_same (c : SearchCache) (ttl now t : Nat) (k : String)
    (v : ResultSet) :
    cache_get (cache_put c k v t) ttl now k =
      if is_cache_valid ttl now t then some v else none := by
  simp [cache_get, cache_lookup, cache_put, List.find?]
  split <;> rfl

/-- A key no entry carries reads back as absent. -/
theorem cache_get_absent (c : SearchCache) (ttl now : Nat) (k : String)
    (habsent : ∀ e ∈ c, e.1 ≠ k) :
    cache_get c ttl now k = none := by
  unfold cache_get cache_lookup
  rw [List.find?_eq_none.mpr]
  intro e he
  simpa using habsent e he

/-- C4: a `get(k)` after `put(k, v)` strictly within the TTL returns `v`;
once at least the TTL elapsed it returns absent, and that absent is the
same observable result as for a key that was never stored. -/
theorem cache_get_respects_ttl (c c' : SearchCache) (ttl now t : Nat)
    (k : String) (v : ResultSet) (habsent : ∀ e ∈ c', e.1 ≠ k) :
    (now - t < ttl → cache_get (cache_put c k v t) ttl now k = some v) ∧
    (ttl ≤ now - t → cache_get (cache_put c k v t) ttl now k = none) ∧
    cache_get c' ttl now k = none ∧
    (ttl ≤ now - t →
      cache_get (cache_put c k v t) ttl now k = cache_get c' ttl now k) := by
  have habs := cache_get_absent c' ttl now k habsent
  have hsame := cache_get_put_same c ttl now t k v
  refine ⟨fun h => ?_, fun h => ?_, habs, fun h => ?_⟩
  · rw [hsame, if_pos (by simpa [is_cache_valid] using h)]
  · rw [hsame, if_neg (by simp [is_cache_valid]; omega)]
  · rw [hsame, if_neg (by simp [is_cache_valid]; omega), habs]

/-- Witness for C4 at a concrete cache, key and clock. -/
theorem cache_get_respects_ttl_witness :
    cache_get (cache_put [] "k" ⟨[], 0, 0, false⟩ 0) 3600 10 "k" =
      some ⟨[], 0, 0, false⟩ ∧
    cache_get (cache_put [] "k" ⟨[], 0, 0, false⟩ 0) 3600 3600 "k" = none ∧
    cache_get [] 3600 3600 "k" = none :=
  ⟨(cache_get_respects_ttl [] [] 3600 10 0 "k" ⟨[], 0, 0, false⟩
      (by simp)).1 (by decide),
   (cache_get_respects_ttl [] [] 3600 3600 0 "k" ⟨[], 0, 0, false⟩
      (by simp)).2.1 (by decide),
   (cache_get_respects_ttl [] [] 3600 3600 0 "k" ⟨[], 0, 0, false⟩
      (by simp)).2.2.1⟩

/-- A cached operation whose cache check misses calls the backend once and
stores the fresh result. -/
theorem cached_search_miss (c : SearchCache) (ttl now : Nat) (k : String)
    (b : Unit → ResultSet) (h : cache_get c ttl now k = none) :
    cached_search c ttl now k b = (b (), cache_put c k (b ()) now, 1) := by
  unfold cached_search
  rw [cache_lookup_eq_pair, h]

/-- A cached operation whose cache check hits returns the cached value,
leaves the cache unchanged and makes no backend call. -/
theorem cached_search_hit (c : SearchCache) (ttl now : Nat) (k : String)
    (b : Unit → ResultSet) (v : ResultSet)
    (h : cache_get c ttl now k = some v) :
    cached_search c ttl now k b = (v, c, 0) := by
  unfold cached_search
  rw [cache_lookup_eq_pair, h]

/-- Repeating the request against a cache already holding the entry, each
time while the entry is valid, always hits: no backend call, cache
untouched. -/
theorem repeat_search_hits (ttl t1 : Nat) (k : String) (b : Unit → ResultSet)
    (c : SearchCache) (r : ResultSet) :
    ∀ times : List Nat, (∀ t ∈ times, t - t1 < ttl) →
      repeat_search (cache_put c k r t1) ttl times k b =
        (List.replicate times.length r, cache_put c k r t1, 0) := by
  intro times
  induction times with
  | nil => intro _; rfl
  | cons t ts ih =>
      intro h
      have hv : cache_get (cache_put c k r t1) ttl t k = some r := by
        rw [cache_get_put_same,
          if_pos (by simpa [is_cache_valid] using h t (by simp))]
      show (let p := cached_search (cache_put c k r t1) ttl t k b
            let q := repeat_search p.2.1 ttl ts k b
            (p.1 :: q.1, q.2.1, p.2.2 + q.2.2)) = _
      rw [cached_search_hit _ _ _ _ _ _ hv]
      simp [ih (fun t' ht' => h t' (by simp [ht'])), List.replicate_succ]

/-- C5: an identical request repeated any number of times, each repeat
within the TTL of the first, returns the first call's ResultSet from the
cache every time, and the backend is called exactly once across all
calls. -/
theorem repeated_search_single_backend_call (c0 : SearchCache) (ttl t1 : Nat)
    (times : List Nat) (k : String) (b : Unit → ResultSet)
    (hmiss : cache_get c0 ttl t1 k = none)
    (httl : ∀ t ∈ times, t - t1 < ttl) :
    (repeat_search c0 ttl (t1 :: times) k b).1 =
      List.replicate (times.length + 1) (b ()) ∧
    (repeat_search c0 ttl (t1 :: times) k b).2.2 = 1 := by
  have hstep :
      repeat_search c0 ttl (t1 :: times) k b =
        ((b ()) :: List.replicate times.length (b ()),
          cache_put c0 k (b ()) t1, 1) := by
    show (let p := cached_search c0 ttl t1 k b
          let q := repeat_search p.2.1 ttl times k b
          (p.1 :: q.1, q.2.1, p.2.2 + q.2.2)) = _
    rw [cached_search_miss _ _ _ _ _ hmiss]
    simp [repeat_search_hits ttl t1 k b c0 (b ()) times httl]
  rw [hstep]
  exact ⟨rfl, rfl⟩

/-- Witness for C5: three identical requests, one backend call. -/
theorem repeated_search_single_backend_call_witness :
    (repeat_search [] 3600 [5, 100, 3000] "k"
        (fun _ => ⟨[mock_rec .web], 0, 1, false⟩)).1 =
      List.replicate 3 ⟨[mock_rec .web], 0, 1, false⟩ ∧
    (repeat_search [] 3600 [5, 100, 3000] "k"
        (fun _ => ⟨[mock_rec .web], 0, 1, false⟩)).2.2 = 1 :=
  repeated_search_single_backend_call [] 3600 5 [100, 3000] "k"
    (fun _ => ⟨[mock_rec .web], 0, 1, false⟩) rfl (by decide)

/-- C10: the get-style cache check mutates nothing — the cache after the
check is exactly the cache before it, every prior entry (expired ones
included) is still present — while a `put` under a key leaves that new
entry as the only one under that key, and `clear` empties the store. -/
theorem cache_lookup_never_mutates (c : SearchCache) (ttl now : Nat)
    (k k2 : String) (v : ResultSet) :
    (cache_lookup c ttl now k).2 = c ∧
    (∀ e ∈ c, e ∈ (cache_lookup c ttl now k).2) ∧
    (∀ e ∈ cache_put c k2 v now, e.1 = k2 → e = (k2, v, now)) ∧
    cache_clear c = [] := by
  refine ⟨cache_lookup_snd_eq c ttl now k, ?_, ?_, rfl⟩
  · intro e he
    rw [cache_lookup_snd_eq]
    exact he
  · intro e he hk
    rcases List.mem_cons.mp he with h | h
    · exact h
    · exact absurd hk (by simpa using (List.mem_filter.mp h).2)

/-- Witness for C10: a lookup of an expired entry leaves it in place. -/
theorem cache_lookup_never_mutates_witness :
    (cache_lookup [("a", ⟨[], 0, 0, false⟩, 0)] 3600 5000 "a").2 =
      [("a", ⟨[], 0, 0, false⟩, 0)] :=
  (cache_lookup_never_mutates [("a", ⟨[], 0, 0, false⟩, 0)] 3600 5000 "a" "b"
    ⟨[], 0, 0, false⟩).1

/-! ## Orchestrator theorems: smart_search -/

/-- Unfolding step: an errored attempt is skipped (one backend call,
`best` unchanged). -/
theorem smart_search_go_error (threshold : Nat) (e : BackendErrorKind)
    (rest : List AttemptOutcome) (idx : Nat)
    (best : Option (Nat × List ResultRecord)) :
    smart_search_go threshold (.error e :: rest) idx best =
      ((smart_search_go threshold rest (idx + 1) best).1,
        (smart_search_go threshold rest (idx + 1) best).2 + 1) := by
  rcases h : smart_search_go threshold rest (idx + 1) best with ⟨res, n⟩
  simp [smart_search_go, h]

/-- Unfolding step: the first attempt meeting the threshold is returned at
once, after exactly this one backend call. -/
theorem smart_search_go_meets (threshold : Nat) (r : List ResultRecord)
    (rest : List AttemptOutcome) (idx : Nat)
    (best : Option (Nat × List ResultRecord)) (h : threshold ≤ r.length) :
    smart_search_go threshold (.ok r :: rest) idx best =
      (.ok { records := r, strategyUsed := idx, attemptCount := idx + 1,
             thresholdNotMet := false }, 1) := by
  simp [smart_search_go, h]

/-- Unfolding step: a successful attempt below the threshold feeds the
best-so-far accumulator and the loop continues. -/
theorem smart_search_go_below (threshold : Nat) (r : List ResultRecord)
    (rest : List AttemptOutcome) (idx : Nat)
    (best : Option (Nat × List ResultRecord)) (h : ¬ threshold ≤ r.length) :
    smart_search_go threshold (.ok r :: rest) idx best =
      ((smart_search_go threshold rest (idx + 1) (update_best best idx r)).1,
        (smart_search_go threshold rest (idx + 1) (update_best best idx r)).2
          + 1) := by
  rcases hrec : smart_search_go threshold rest (idx + 1) (update_best best idx r)
    with ⟨res, n⟩
  simp [smart_search_go, h, hrec]

/-- The loop, started at index `idx`, stops at the first attempt meeting
the threshold and has by then made exactly the calls up to it. -/
theorem smart_search_go_first_meeting (threshold : Nat) :
    ∀ (outs : List AttemptOutcome) (i : Nat) (r : List ResultRecord)
      (idx : Nat) (best : Option (Nat × List ResultRecord)),
      outs[i]? = some (.ok r) → threshold ≤ r.length →
      (∀ o ∈ outs.take i, meets_threshold threshold o = false) →
      smart_search_go threshold outs idx best =
        (.ok { records := r, strategyUsed := idx + i,
               attemptCount := idx + i + 1, thresholdNotMet := false },
          i + 1) := by
  intro outs
  induction outs with
  | nil => intro i r idx best hi _ _; simp at hi
  | cons o rest ih =>
      intro i r idx best hi hmeet hbefore
      cases i with
      | zero =>
          rw [List.getElem?_cons_zero] at hi
          cases hi
          rw [smart_search_go_meets threshold r rest idx best hmeet]
          simp
      | succ i' =>
          have h0 : meets_threshold threshold o = false :=
            hbefore o (by simp [List.take_succ_cons])
          have hi' : rest[i']? = some (.ok r) := by
            simpa using hi
          have hbefore' :
              ∀ o' ∈ rest.take i', meets_threshold threshold o' = false :=
            fun o' ho' => hbefore o' (by simp [List.take_succ_cons, ho'])
          have harith : idx + 1 + i' = idx + (i' + 1) := by omega
          cases o with
          | error e =>
              rw [smart_search_go_error,
                ih i' r (idx + 1) best hi' hmeet hbefore', harith]
          | ok s =>
              have hs : ¬ threshold ≤ s.length := by
                simpa [meets_threshold] using h0
              rw [smart_search_go_below threshold s rest idx best hs,
                ih i' r (idx + 1) (update_best best idx s) hi' hmeet hbefore',
                harith]

/-- C1: for every query, maxAttempts, resultThreshold and fixed sequence
of backend responses, `smart_search` returns the result of the earliest
strategy in list order whose record count meets the threshold, annotated
with that strategy's index and attempt count, and makes no backend call
for any later strategy. -/
theorem smart_search_selects_first_meeting
    (backend : Strategy → AttemptOutcome) (query : String)
    (maxAttempts threshold i : Nat) (outs : List AttemptOutcome)
    (r : List ResultRecord)
    (houts : ((smart_strategies query).take maxAttempts).map backend = outs)
    (hi : outs[i]? = some (.ok r))
    (hmeet : threshold ≤ r.length)
    (hbefore : ∀ o ∈ outs.take i, meets_threshold threshold o = false) :
    smart_search backend query maxAttempts threshold =
      (.ok { records := r, strategyUsed := i, attemptCount := i + 1,
             thresholdNotMet := false }, i + 1) := by
  unfold smart_search smart_search_outs
  rw [houts]
  simpa using
    smart_search_go_first_meeting threshold outs i r 0 none hi hmeet hbefore

/-- Witness for C1: the spec's end-to-end example — responses of 0, 5 and
2 records with threshold 3 select the quoted-phrase strategy, 5 records,
`attemptCount = 2`, after exactly 2 backend calls. -/
theorem smart_search_selects_first_meeting_witness :
    smart_search mock_backend "rust ownership" 3 3 =
      (.ok { records := List.replicate 5 (mock_rec .web), strategyUsed := 1,
             attemptCount := 2, thresholdNotMet := false }, 2) :=
  smart_search_selects_first_meeting mock_backend "rust ownership" 3 3 1
    [.ok [], .ok (List.replicate 5 (mock_rec .web)),
      .ok (List.replicate 2 (mock_rec .web))]
    (List.replicate 5 (mock_rec .web)) (by decide) rfl (by decide) (by decide)

/-- When every attempt raises, the loop ends with the aggregated
`Unavailable` error after calling every strategy. -/
theorem smart_search_go_all_error (threshold : Nat) :
    ∀ (outs : List AttemptOutcome) (idx : Nat),
      (∀ o ∈ outs, ∃ e, o = .error e) →
      smart_search_go threshold outs idx none =
        (.error .Unavailable, outs.length) := by
  intro outs
  induction outs with
  | nil => intro idx _; rfl
  | cons o rest ih =>
      intro idx h
      obtain ⟨e, he⟩ := h o (by simp)
      subst he
      rw [smart_search_go_error, ih (idx + 1) (fun o' ho' => h o' (by simp [ho']))]
      simp

/-- One successful attempt (or a nonempty best-so-far) guarantees the loop
returns a ResultSet, never an error. -/
theorem smart_search_go_ok_of_success (threshold : Nat) :
    ∀ (outs : List AttemptOutcome) (idx : Nat)
      (best : Option (Nat × List ResultRecord)),
      ((∃ r, .ok r ∈ outs) ∨ ∃ p, best = some p) →
      ∃ rs n, smart_search_go threshold outs idx best = (.ok rs, n) := by
  intro outs
  induction outs with
  | nil =>
      intro idx best h
      rcases h with ⟨r, hr⟩ | ⟨⟨j, s⟩, hb⟩
      · simp at hr
      · subst hb
        exact ⟨_, _, rfl⟩
  | cons o rest ih =>
      intro idx best h
      cases o with
      | error e =>
          have h' : (∃ r, .ok r ∈ rest) ∨ ∃ p, best = some p := by
            rcases h with ⟨r, hr⟩ | hb
            · rcases List.mem_cons.mp hr with h0 | h0
              · exact absurd h0 (by simp)
              · exact Or.inl ⟨r, h0⟩
            · exact Or.inr hb
          obtain ⟨rs, n, hgo⟩ := ih (idx + 1) best h'
          exact ⟨rs, n + 1, by rw [smart_search_go_error, hgo]⟩
      | ok r =>
          by_cases hm : threshold ≤ r.length
          · exact ⟨_, _, smart_search_go_meets threshold r rest idx best hm⟩
          · have h' : (∃ r', .ok r' ∈ rest) ∨
                ∃ p, update_best best idx r = some p := by
              refine Or.inr ?_
              rcases best with _ | ⟨j, s⟩
              · exact ⟨(idx, r), rfl⟩
              · unfold update_best
                by_cases hc : s.length < r.length <;> simp [hc]
            obtain ⟨rs, n, hgo⟩ := ih (idx + 1) (update_best best idx r) h'
            exact ⟨rs, n + 1, by rw [smart_search_go_below threshold r rest idx best hm, hgo]⟩

/-- C3: a `BackendError` from a single strategy attempt is caught and
treated as a zero-result attempt — one failing strategy never aborts
`smart_search`; an error reaches the caller only when every attempt
raises, and then it is the single aggregated `Unavailable` error. -/
theorem smart_search_error_isolation
    (backend : Strategy → AttemptOutcome) (query : String)
    (maxAttempts threshold : Nat) (outs : List AttemptOutcome)
    (houts : ((smart_strategies query).take maxAttempts).map backend = outs) :
    ((∀ o ∈ outs, ∃ e, o = .error e) →
      (smart_search backend query maxAttempts threshold).1 =
        .error .Unavailable) ∧
    ((∃ r, .ok r ∈ outs) →
      ∃ rs, (smart_search backend query maxAttempts threshold).1 = .ok rs) := by
  unfold smart_search smart_search_outs
  rw [houts]
  constructor
  · intro h
    rw [smart_search_go_all_error threshold outs 0 h]
  · intro h
    obtain ⟨rs, n, hgo⟩ :=
      smart_search_go_ok_of_success threshold outs 0 none (Or.inl h)
    exact ⟨rs, by rw [hgo]⟩

/-- Witness for C3: with every strategy failing the caller sees the single
`Unavailable` error; with the mocked mixed responses the caller gets a
ResultSet. -/
theorem smart_search_error_isolation_witness :
    (smart_search (fun _ => .error .RateLimited) "q" 3 3).1 =
      .error .Unavailable ∧
    ∃ rs, (smart_search mock_backend "rust ownership" 3 99).1 = .ok rs :=
  ⟨(smart_search_error_isolation (fun _ => .error .RateLimited) "q" 3 3
      [.error .RateLimited, .error .RateLimited, .error .RateLimited]
      (by decide)).1
      (by intro o ho; simp at ho; rcases ho with rfl | rfl | rfl <;>
        exact ⟨_, rfl⟩),
   (smart_search_error_isolation mock_backend "rust ownership" 3 99
      [.ok [], .ok (List.replicate 5 (mock_rec .web)),
        .ok (List.replicate 2 (mock_rec .web))]
      (by decide)).2 ⟨List.replicate 5 (mock_rec .web), by simp⟩⟩

/-- Under a threshold no attempt meets, the loop runs the whole strategy
list and returns the accumulated best attempt — the aggregated error when
there is none — after calling every strategy. -/
theorem smart_search_go_fallback (threshold : Nat) :
    ∀ (outs : List AttemptOutcome) (idx : Nat)
      (best : Option (Nat × List ResultRecord)),
      (∀ o ∈ outs, meets_threshold threshold o = false) →
      smart_search_go threshold outs idx best =
        (match fallback_best best outs idx with
         | some (j, r) =>
             (.ok { records := r, strategyUsed := j,
                    attemptCount := idx + outs.length,
                    thresholdNotMet := true }, outs.length)
         | none => (.error .Unavailable, outs.length)) := by
  intro outs
  induction outs with
  | nil =>
      intro idx best _
      rcases best with _ | ⟨j, r⟩ <;> simp [smart_search_go, fallback_best]
  | cons o rest ih =>
      intro idx best h
      cases o with
      | error e =>
          rw [smart_search_go_error,
            ih (idx + 1) best (fun o' ho' => h o' (by simp [ho']))]
          show _ = (match fallback_best best rest (idx + 1) with
            | some (j, r) =>
                ((.ok { records := r, strategyUsed := j,
                        attemptCount := idx + (rest.length + 1),
                        thresholdNotMet := true } :
                    Except BackendErrorKind ResultSet), rest.length + 1)
            | none => (.error .Unavailable, rest.length + 1))
          rcases hfb : fallback_best best rest (idx + 1) with _ | ⟨j, r⟩ <;>
            simp [hfb] <;> omega
      | ok r' =>
          have hs : ¬ threshold ≤ r'.length := by
            simpa [meets_threshold] using h (.ok r') (by simp)
          rw [smart_search_go_below threshold r' rest idx best hs,
            ih (idx + 1) (update_best best idx r')
              (fun o' ho' => h o' (by simp [ho']))]
          show _ = (match fallback_best (update_best best idx r') rest (idx + 1)
              with
            | some (j, r) =>
                ((.ok { records := r, strategyUsed := j,
                        attemptCount := idx + (rest.length + 1),
                        thresholdNotMet := true } :
                    Except BackendErrorKind ResultSet), rest.length + 1)
            | none => (.error .Unavailable, rest.length + 1))
          rcases hfb : fallback_best (update_best best idx r') rest (idx + 1)
            with _ | ⟨j, r⟩ <;> simp [hfb] <;> omega

/-- Starting the fold from a successful attempt `(j0, s0)` with `j0`
before the remaining window, it returns the earliest-max attempt among
`(j0, s0)` and the successes of `outs`. -/
theorem fallback_best_some_spec :
    ∀ (outs : List AttemptOutcome) (idx j0 : Nat) (s0 : List ResultRecord),
      j0 < idx →
      ∃ k r, fallback_best (some (j0, s0)) outs idx = some (k, r) ∧
        ((k = j0 ∧ r = s0) ∨ ∃ j, k = idx + j ∧ outs[j]? = some (.ok r)) ∧
        s0.length ≤ r.length ∧
        (r.length ≤ s0.length → k = j0 ∧ r = s0) ∧
        (∀ j' s, outs[j']? = some (.ok s) →
          s.length ≤ r.length ∧ (r.length ≤ s.length → k ≤ idx + j')) := by
  intro outs
  induction outs with
  | nil =>
      intro idx j0 s0 _
      exact ⟨j0, s0, rfl, Or.inl ⟨rfl, rfl⟩, le_refl _,
        fun _ => ⟨rfl, rfl⟩, by intro j' s hs; simp at hs⟩
  | cons o rest ih =>
      intro idx j0 s0 hj0
      cases o with
      | error e =>
          obtain ⟨k, r, hfb, hmem, hle, htie, hall⟩ :=
            ih (idx + 1) j0 s0 (by omega)
          refine ⟨k, r, hfb, ?_, hle, htie, ?_⟩
          · rcases hmem with h0 | ⟨j, hk, hj⟩
            · exact Or.inl h0
            · exact Or.inr ⟨j + 1, by omega, by simpa using hj⟩
          · intro j' s hs
            cases j' with
            | zero => simp at hs
            | succ j'' =>
                have := hall j'' s (by simpa using hs)
                exact ⟨this.1, fun hl => by have := this.2 hl; omega⟩
      | ok r' =>
          by_cases hlt : s0.length < r'.length
          · obtain ⟨k, r, hfb, hmem, hle, htie, hall⟩ :=
              ih (idx + 1) idx r' (by omega)
            refine ⟨k, r, ?_, ?_, by omega, ?_, ?_⟩
            · rw [← hfb]
              show fallback_best (update_best (some (j0, s0)) idx r') rest
                  (idx + 1) = _
              rw [update_best, if_pos hlt]
            · rcases hmem with ⟨hk, hr⟩ | ⟨j, hk, hj⟩
              · exact Or.inr ⟨0, by omega, by simp [hr]⟩
              · exact Or.inr ⟨j + 1, by omega, by simpa using hj⟩
            · intro hcon
              exact absurd hcon (by omega)
            · intro j' s hs
              cases j' with
              | zero =>
                  rw [List.getElem?_cons_zero] at hs
                  cases hs
                  exact ⟨hle, fun hl => by have := htie hl; omega⟩
              | succ j'' =>
                  have := hall j'' s (by simpa using hs)
                  exact ⟨this.1, fun hl => by have := this.2 hl; omega⟩
          · obtain ⟨k, r, hfb, hmem, hle, htie, hall⟩ :=
              ih (idx + 1) j0 s0 (by omega)
            refine ⟨k, r, ?_, ?_, hle, htie, ?_⟩
            · rw [← hfb]
              show fallback_best (update_best (some (j0, s0)) idx r') rest
                  (idx + 1) = _
              rw [update_best, if_neg hlt]
            · rcases hmem with h0 | ⟨j, hk, hj⟩
              · exact Or.inl h0
              · exact Or.inr ⟨j + 1, by omega, by simpa using hj⟩
            · intro j' s hs
              cases j' with
              | zero =>
                  rw [List.getElem?_cons_zero] at hs
                  cases hs
                  refine ⟨by omega, fun hl => ?_⟩
                  have hk := htie (by omega)
                  omega
              | succ j'' =>
                  have := hall j'' s (by simpa using hs)
                  exact ⟨this.1, fun hl => by have := this.2 hl; omega⟩

/-- The fold from an empty accumulator: when it yields an attempt, that
attempt is a success of `outs` and is the earliest one of maximal record
count; when it yields nothing, every attempt errored. -/
theorem fallback_best_none_spec :
    ∀ (outs : List AttemptOutcome) (idx : Nat),
      (∀ k r, fallback_best none outs idx = some (k, r) →
        (∃ j, k = idx + j ∧ outs[j]? = some (.ok r)) ∧
        (∀ j' s, outs[j']? = some (.ok s) →
          s.length ≤ r.length ∧ (r.length ≤ s.length → k ≤ idx + j'))) ∧
      (fallback_best none outs idx = none →
        ∀ (j : Nat) (o : AttemptOutcome), outs[j]? = some o →
          ∃ e, o = Except.error e) := by
  intro outs
  induction outs with
  | nil =>
      intro idx
      exact ⟨fun k r h => (by cases h), fun _ j o h => (by simp at h)⟩
  | cons o rest ih =>
      intro idx
      cases o with
      | error e =>
          constructor
          · intro k r h
            have h' : fallback_best none rest (idx + 1) = some (k, r) := h
            obtain ⟨⟨j, hk, hj⟩, hall⟩ := (ih (idx + 1)).1 k r h'
            refine ⟨⟨j + 1, by omega, by simpa using hj⟩, ?_⟩
            intro j' s hs
            cases j' with
            | zero => simp at hs
            | succ j'' =>
                have := hall j'' s (by simpa using hs)
                exact ⟨this.1, fun hl => by have := this.2 hl; omega⟩
          · intro h j o ho
            have h' : fallback_best none rest (idx + 1) = none := h
            cases j with
            | zero =>
                rw [List.getElem?_cons_zero] at ho
                cases ho
                exact ⟨e, rfl⟩
            | succ j' => exact (ih (idx + 1)).2 h' j' o (by simpa using ho)
      | ok r' =>
          have hstep : fallback_best none (.ok r' :: rest) idx =
              fallback_best (some (idx, r')) rest (idx + 1) := rfl
          obtain ⟨k, r, hfb, hmem, hle, htie, hall⟩ :=
            fallback_best_some_spec rest (idx + 1) idx r' (by omega)
          constructor
          · intro k0 r0 h
            rw [hstep, hfb] at h
            cases h
            refine ⟨?_, ?_⟩
            · rcases hmem with ⟨hk, hr⟩ | ⟨j, hk, hj⟩
              · exact ⟨0, by omega, by simp [hr]⟩
              · exact ⟨j + 1, by omega, by simpa using hj⟩
            · intro j' s hs
              cases j' with
              | zero =>
                  rw [List.getElem?_cons_zero] at hs
                  cases hs
                  exact ⟨hle, fun hl => by have := htie hl; omega⟩
              | succ j'' =>
                  have := hall j'' s (by simpa using hs)
                  exact ⟨this.1, fun hl => by have := this.2 hl; omega⟩
          · intro h
            rw [hstep, hfb] at h
            cases h

/-- C2: in every run of `smart_search` where no strategy's result meets
the threshold but some attempt succeeded, the returned ResultSet is the
attempt with the highest record count among all attempts made, ties going
to the earliest strategy in list order, annotated with the attempt count
and the threshold-not-met flag set. -/
theorem smart_search_fallback_best
    (backend : Strategy → AttemptOutcome) (query : String)
    (maxAttempts threshold : Nat) (outs : List AttemptOutcome)
    (houts : ((smart_strategies query).take maxAttempts).map backend = outs)
    (hnomeet : ∀ o ∈ outs, meets_threshold threshold o = false)
    (hsucc : ∃ r, .ok r ∈ outs) :
    ∃ k r, outs[k]? = some (.ok r) ∧
      smart_search backend query maxAttempts threshold =
        (.ok { records := r, strategyUsed := k, attemptCount := outs.length,
               thresholdNotMet := true }, outs.length) ∧
      (∀ j s, outs[j]? = some (.ok s) →
        s.length ≤ r.length ∧ (r.length ≤ s.length → k ≤ j)) := by
  unfold smart_search smart_search_outs
  rw [houts, smart_search_go_fallback threshold outs 0 none hnomeet]
  rcases hfb : fallback_best none outs 0 with _ | ⟨k, r⟩
  · obtain ⟨rsucc, hmem⟩ := hsucc
    obtain ⟨j, hj⟩ := List.getElem?_of_mem hmem
    obtain ⟨e, he⟩ := (fallback_best_none_spec outs 0).2 hfb j _ hj
    cases he
  · obtain ⟨⟨j, hk, hj⟩, hall⟩ := (fallback_best_none_spec outs 0).1 k r hfb
    refine ⟨k, r, by rw [hk]; simpa using hj, by simp, ?_⟩
    intro j' s hs
    have := hall j' s hs
    exact ⟨this.1, fun hl => by have := this.2 hl; omega⟩

/-- Witness for C2: all three mocked attempts fall below threshold 99; the
5-record quoted-phrase attempt is the maximum, `attemptCount = 3`, flag
set. -/
theorem smart_search_fallback_best_witness :
    ∃ k r,
      ([.ok [], .ok (List.replicate 5 (mock_rec .web)),
          .ok (List.replicate 2 (mock_rec .web))] :
        List AttemptOutcome)[k]? = some (.ok r) ∧
      smart_search mock_backend "rust ownership" 3 99 =
        (.ok { records := r, strategyUsed := k, attemptCount := 3,
               thresholdNotMet := true }, 3) ∧
      (∀ j s,
        ([.ok [], .ok (List.replicate 5 (mock_rec .web)),
            .ok (List.replicate 2 (mock_rec .web))] :
          List AttemptOutcome)[j]? = some (.ok s) →
        s.length ≤ r.length ∧ (r.length ≤ s.length → k ≤ j)) :=
  smart_search_fallback_best mock_backend "rust ownership" 3 99
    [.ok [], .ok (List.replicate 5 (mock_rec .web)),
      .ok (List.replicate 2 (mock_rec .web))]
    (by decide) (by decide) ⟨[], by simp⟩

/-! ## Orchestrator theorems: research_search -/

/-- The research loop produces exactly one labeled section per source, in
source order, and one backend call per source. -/
theorem research_fetch_spec (backend : SourceType → AttemptOutcome) :
    ∀ srcs : List SourceType,
      research_fetch backend srcs =
        (srcs.map (fun s =>
          match backend s with
          | .ok r => ⟨s, r, none⟩
          | .error e => ⟨s, [], some e⟩), srcs.length) := by
  intro srcs
  induction srcs with
  | nil => rfl
  | cons s rest ih => simp [research_fetch, ih]

/-- C6: `research_search` issues exactly one backend call for light depth
(web only), two for medium (web and news) and three for deep (web, news
and the extra configured source); results come back as one labeled
section per source, and an error from one section's call yields an empty
section with an error note while the other sections stay populated. -/
theorem research_search_by_depth (backend : SourceType → AttemptOutcome)
    (extra : SourceType) :
    (research_search backend extra .light).2 = 1 ∧
    (research_search backend extra .medium).2 = 2 ∧
    (research_search backend extra .deep).2 = 3 ∧
    (research_search backend extra .light).1.map ResearchSection.label =
      [.web] ∧
    (research_search backend extra .medium).1.map ResearchSection.label =
      [.web, .news] ∧
    (research_search backend extra .deep).1.map ResearchSection.label =
      [.web, .news, extra] ∧
    (∀ depth, (research_search backend extra depth).1 =
      (research_sources extra depth).map (fun s =>
        match backend s with
        | .ok r => ⟨s, r, none⟩
        | .error e => ⟨s, [], some e⟩)) ∧
    (∀ (e : BackendErrorKind) (rweb rextra : List ResultRecord),
      backend .web = .ok rweb → backend .news = .error e →
      backend extra = .ok rextra →
      (research_search backend extra .deep).1 =
        [⟨.web, rweb, none⟩, ⟨.news, [], some e⟩, ⟨extra, rextra, none⟩]) := by
  refine ⟨?_, ?_, ?_, ?_, ?_, ?_, ?_, ?_⟩
  · simp [research_search, research_fetch_spec, research_sources]
  · simp [research_search, research_fetch_spec, research_sources]
  · simp [research_search, research_fetch_spec, research_sources]
  · simp [research_search, research_fetch_spec, research_sources]
    rcases backend .web with e | r <;> simp
  · simp [research_search, research_fetch_spec, research_sources]
    constructor
    · rcases backend .web with e | r <;> simp
    · rcases backend .news with e | r <;> simp
  · simp [research_search, research_fetch_spec, research_sources]
    refine ⟨?_, ?_, ?_⟩
    · rcases backend .web with e | r <;> simp
    · rcases backend .news with e | r <;> simp
    · rcases backend extra with e | r <;> simp
  · intro depth
    simp [research_search, research_fetch_spec]
  · intro e rweb rextra hweb hnews hextra
    simp [research_search, research_fetch_spec, research_sources, hweb,
      hnews, hextra]

/-- Witness for C6: the mocked research backend with the news call
raising `Unavailable` — one call at light depth; at deep depth three
sections, news empty with the error note, web and the extra source
populated. -/
theorem research_search_by_depth_witness :
    (research_search mock_research_backend .faq .light).2 = 1 ∧
    (research_search mock_research_backend .faq .deep).1 =
      [⟨.web, [mock_rec .web], none⟩, ⟨.news, [], some .Unavailable⟩,
        ⟨.faq, [mock_rec .faq], none⟩] :=
  ⟨(research_search_by_depth mock_research_backend .faq).1,
   (research_search_by_depth mock_research_backend .faq).2.2.2.2.2.2.2
     .Unavailable [mock_rec .web] [mock_rec .faq] rfl rfl rfl⟩

/-! ## Search Backend Client theorems -/

/-- Unfolding equation for `make_brave_request` on an HTTP response. -/
theorem make_brave_request_response (status : Nat)
    (body : Option ProviderResponse) :
    make_brave_request (.response status body) =
      if 200 ≤ status ∧ status < 300 then
        (match body with
         | some r => Except.ok r
         | none => Except.error BackendErrorKind.Malformed)
      else Except.error (classify_status status) := rfl

/-- C7: the client's failure kind is determined exactly by the cause —
401/403 map to Unauthorized, 429 to RateLimited, any other 4xx to
InvalidRequest, 5xx and timeout and connection failure to Unavailable, an
unparseable 2xx body to Malformed — and a well-formed response with zero
extractable records is a valid empty ResultSet, not an error. -/
theorem backend_error_mapping (status : Nat) (body : Option ProviderResponse)
    (r : ProviderResponse) :
    make_brave_request .timeout = .error .Unavailable ∧
    make_brave_request .connectionFailure = .error .Unavailable ∧
    make_brave_request (.response 401 body) = .error .Unauthorized ∧
    make_brave_request (.response 403 body) = .error .Unauthorized ∧
    make_brave_request (.response 429 body) = .error .RateLimited ∧
    (400 ≤ status → status < 500 → status ≠ 401 → status ≠ 403 →
      status ≠ 429 →
      make_brave_request (.response status body) = .error .InvalidRequest) ∧
    (500 ≤ status →
      make_brave_request (.response status body) = .error .Unavailable) ∧
    (200 ≤ status → status < 300 →
      make_brave_request (.response status (some r)) = .ok r) ∧
    (200 ≤ status → status < 300 →
      make_brave_request (.response status none) = .error .Malformed) ∧
    (extract_search_results r = [] →
      backend_execute (.response 200 (some r)) = .ok []) := by
  refine ⟨rfl, rfl, ?_, ?_, ?_, ?_, ?_, ?_, ?_, ?_⟩
  · rw [make_brave_request_response, if_neg (by omega)]
    rfl
  · rw [make_brave_request_response, if_neg (by omega)]
    rfl
  · rw [make_brave_request_response, if_neg (by omega)]
    rfl
  · intro h1 h2 h3 h4 h5
    rw [make_brave_request_response, if_neg (by omega)]
    unfold classify_status
    rw [if_neg (by omega), if_neg (by omega), if_pos (by omega)]
  · intro h1
    rw [make_brave_request_response, if_neg (by omega)]
    unfold classify_status
    rw [if_neg (by omega), if_neg (by omega), if_neg (by omega)]
  · intro h1 h2
    rw [make_brave_request_response, if_pos (by omega)]
  · intro h1 h2
    rw [make_brave_request_response, if_pos (by omega)]
  · intro hempty
    unfold backend_execute
    rw [make_brave_request_response, if_pos (by omega)]
    simp [hempty]

/-- Witness for C7 at concrete statuses and a concrete empty response. -/
theorem backend_error_mapping_witness :
    make_brave_request (.response 404 none) = .error .InvalidRequest ∧
    make_brave_request (.response 503 none) = .error .Unavailable ∧
    make_brave_request (.response 200 (some ⟨[], [], []⟩)) =
      .ok ⟨[], [], []⟩ ∧
    backend_execute (.response 200 (some ⟨[], [], []⟩)) = .ok [] :=
  ⟨(backend_error_mapping 404 none ⟨[], [], []⟩).2.2.2.2.2.1 (by decide)
      (by decide) (by decide) (by decide) (by decide),
   (backend_error_mapping 503 none ⟨[], [], []⟩).2.2.2.2.2.2.1 (by decide),
   (backend_error_mapping 200 none ⟨[], [], []⟩).2.2.2.2.2.2.2.1 (by decide)
      (by decide),
   (backend_error_mapping 200 none ⟨[], [], []⟩).2.2.2.2.2.2.2.2.2 rfl⟩

/-! ## Tool Facade theorems -/

/-- C8: each of the four facade operations rejects an empty required query
with the same structured error object rather than an exception; the three
query-based tools behave identically on every input; and every internal
error reaching the facade becomes the uniform caller-facing error object —
the typed backend error is rendered by the fixed per-kind message and an
unexpected exception by the fixed general message, never exposing the raw
exception detail. -/
theorem facade_uniform_validation (q : String)
    (body : InternalOutcome ResultSet)
    (rbody : InternalOutcome (List ResearchSection))
    (e : BackendErrorKind) (d d2 : String) :
    web_search_tool "" body = .err "query is required" ∧
    news_search_tool "" body = .err "query is required" ∧
    smart_search_tool "" body = .err "query is required" ∧
    research_search_tool "" rbody = .err "query is required" ∧
    web_search_tool q body = news_search_tool q body ∧
    web_search_tool q body = smart_search_tool q body ∧
    (q ≠ "" → web_search_tool q (.backendError e) = .err (error_message e)) ∧
    (q ≠ "" →
      research_search_tool q (.backendError e) = .err (error_message e)) ∧
    (q ≠ "" →
      web_search_tool q (.unexpected d) = .err general_error_message) ∧
    web_search_tool q (.unexpected d) = web_search_tool q (.unexpected d2) := by
  refine ⟨rfl, rfl, rfl, rfl, rfl, rfl, ?_, ?_, ?_, ?_⟩
  · intro hq
    simp [web_search_tool, run_tool, validate_query, hq]
  · intro hq
    simp [research_search_tool, run_tool, validate_query, hq]
  · intro hq
    simp [web_search_tool, run_tool, validate_query, hq]
  · by_cases hq : q = "" <;>
      simp [web_search_tool, run_tool, validate_query, hq]

/-- Witness for C8 on concrete queries and errors. -/
theorem facade_uniform_validation_witness :
    web_search_tool "" (.success ⟨[], 0, 0, false⟩) =
      .err "query is required" ∧
    web_search_tool "x" (.backendError .RateLimited) =
      .err (error_message .RateLimited) ∧
    web_search_tool "x" (.unexpected "boom") = .err general_error_message :=
  ⟨(facade_uniform_validation "x" (.success ⟨[], 0, 0, false⟩)
      (.backendError .Unavailable) .RateLimited "boom" "other").1,
   (facade_uniform_validation "x" (.success ⟨[], 0, 0, false⟩)
      (.backendError .Unavailable) .RateLimited "boom" "other").2.2.2.2.2.2.1
      (by decide),
   (facade_uniform_validation "x" (.success ⟨[], 0, 0, false⟩)
      (.backendError .Unavailable) .RateLimited "boom" "other").2.2.2.2.2.2.2.2.1
      (by decide)⟩

/-- Whatever the validation state and handler body, the facade wrapper
returns a value: a payload or an error object. -/
theorem run_tool_total {α : Type} (validation : Option String)
    (body : InternalOutcome α) :
    (∃ v, run_tool validation body = .ok v) ∨
    (∃ m, run_tool validation body = .err m) := by
  cases validation with
  | some m => exact Or.inr ⟨m, rfl⟩
  | none =>
      cases body with
      | success v => exact Or.inl ⟨v, rfl⟩
      | backendError e => exact Or.inr ⟨error_message e, rfl⟩
      | unexpected d => exact Or.inr ⟨general_error_message, rfl⟩

/-- An unexpected exception always comes back as an error object. -/
theorem run_tool_unexpected_err {α : Type} (validation : Option String)
    (d : String) :
    ∃ m, (run_tool validation (.unexpected d) : ToolResult α) = .err m := by
  cases validation with
  | some m => exact ⟨m, rfl⟩
  | none => exact ⟨general_error_message, rfl⟩

/-- C9: every public tool handler is total at its interface — for every
input, including one whose body raises an unexpected (non-backend)
exception, the call returns a value, and the catch-all branch converts any
otherwise uncaught exception into a returned error object, so no
exception propagates to the agent runtime. -/
theorem tool_handlers_total (q : String) (body : InternalOutcome ResultSet)
    (rbody : InternalOutcome (List ResearchSection)) (d : String) :
    ((∃ v, web_search_tool q body = .ok v) ∨
      (∃ m, web_search_tool q body = .err m)) ∧
    ((∃ v, news_search_tool q body = .ok v) ∨
      (∃ m, news_search_tool q body = .err m)) ∧
    ((∃ v, smart_search_tool q body = .ok v) ∨
      (∃ m, smart_search_tool q body = .err m)) ∧
    ((∃ v, research_search_tool q rbody = .ok v) ∨
      (∃ m, research_search_tool q rbody = .err m)) ∧
    (∃ m, web_search_tool q (.unexpected d) = .err m) ∧
    (∃ m, news_search_tool q (.unexpected d) = .err m) ∧
    (∃ m, smart_search_tool q (.unexpected d) = .err m) ∧
    (∃ m, research_search_tool q (.unexpected d) = .err m) :=
  ⟨run_tool_total (validate_query q) body,
   run_tool_total (validate_query q) body,
   run_tool_total (validate_query q) body,
   run_tool_total (validate_query q) rbody,
   run_tool_unexpected_err (validate_query q) d,
   run_tool_unexpected_err (validate_query q) d,
   run_tool_unexpected_err (validate_query q) d,
   run_tool_unexpected_err (validate_query q) d⟩

end BraveSearch
